import Mathlib

/-!
Verification of the FIQ control-tower data-transformation core
(`utils/dataProcessor.ts`): the date normalizer `parseDate` and the
aggregation engine `processDataForDashboard`.

Modelling conventions:
* JS numbers are modelled as exact rationals (`ℚ`); the spec states all
  KPI formulas in exact arithmetic.
* A JS `Date` is modelled by its timestamp, milliseconds since the Unix
  epoch, as an integer (`ℤ`); nullable date fields are `Option ℤ`.
* The JS string key `order_date.toISOString().split('T')[0]` used to group
  orders by UTC calendar day is modelled by the day index
  `Int.fdiv ts 86400000` (the rendering of a day index as an ISO string is
  injective and order-preserving, so grouping and sorting agree).
* Chart entries `{name, value}` / `{name, quantity}` / `{name, orders}` are
  modelled as pairs, `Prod.fst` the name and `Prod.snd` the numeric field.
-/

/-- The canonical row type from `types.ts` (`DataRow`).  The open set of
passthrough CSV columns is omitted: the engine never reads them. -/
structure DataRow where
  type : String
  id : String
  product_name : String
  quantity : ℚ
  status : String
  order_date : Option ℤ
  ship_date : Option ℤ
  delivery_date : Option ℤ
  required_shipping_date : Option ℤ
  location : String
deriving DecidableEq

/-- `KpiData` from `types.ts`; the `'N/A'` sentinel of `cycleTime` is
modelled by `none`. -/
structure KpiData where
  fillRate : ℚ
  cycleTime : Option ℚ
  onTimeRate : ℚ
  inventoryTurnover : ℚ
deriving DecidableEq

/-- Return type of `processDataForDashboard` (`ProcessedData`). -/
structure ProcessedData where
  kpis : KpiData
  ordersChartData : List (String × ℕ)
  inventoryChartData : List (String × ℚ)
  volumeChartData : List (ℤ × ℕ)
  orders : List DataRow
deriving DecidableEq

/-- `data.filter(row => row.type === 'order')`. -/
def orders (data : List DataRow) : List DataRow :=
  data.filter (fun row => row.type == "order")

/-- `data.filter(row => row.type === 'shipment')`. -/
def shipments (data : List DataRow) : List DataRow :=
  data.filter (fun row => row.type == "shipment")

/-- `data.filter(row => row.type === 'inventory')`. -/
def inventory (data : List DataRow) : List DataRow :=
  data.filter (fun row => row.type == "inventory")

/-- `orders.filter(o => o.status === 'Shipped' || o.status === 'Delivered').length`. -/
def shippedOrdersCount (data : List DataRow) : ℕ :=
  ((orders data).filter (fun o => o.status == "Shipped" || o.status == "Delivered")).length

/-- `orders.length > 0 ? (shippedOrdersCount / orders.length) * 100 : 0`. -/
def fillRate (data : List DataRow) : ℚ :=
  if (orders data).length > 0 then
    ((shippedOrdersCount data : ℚ) / ((orders data).length : ℚ)) * 100
  else 0

/-- `orders.filter(o => o.status === 'Delivered' && o.delivery_date && o.order_date)`;
a JS `Date` object is always truthy, so truthiness of a `Date | null` field is
exactly `Option.isSome`. -/
def deliveredOrders (data : List DataRow) : List DataRow :=
  (orders data).filter
    (fun o => o.status == "Delivered" && o.delivery_date.isSome && o.order_date.isSome)

/-- Per-row `(o.delivery_date.getTime() - o.order_date.getTime()) / (1000*60*60*24)`. -/
def cycleDays (o : DataRow) : ℚ :=
  ((o.delivery_date.getD 0 - o.order_date.getD 0 : ℤ) : ℚ) / (1000 * 60 * 60 * 24)

/-- The `avgCycleTime` accumulator: `'N/A'` (here `none`) when no delivered
order has both dates, otherwise the mean of the per-row cycle times. -/
def avgCycleTime (data : List DataRow) : Option ℚ :=
  if (deliveredOrders data).length > 0 then
    some (((deliveredOrders data).map cycleDays).sum / ((deliveredOrders data).length : ℚ))
  else none

/-- `shipments.filter(s => s.ship_date && s.required_shipping_date && s.ship_date <= s.required_shipping_date).length`. -/
def onTimeShipments (data : List DataRow) : ℕ :=
  ((shipments data).filter
    (fun s => s.ship_date.isSome && s.required_shipping_date.isSome &&
      decide (s.ship_date.getD 0 ≤ s.required_shipping_date.getD 0))).length

/-- `shipments.filter(s => s.required_shipping_date)`. -/
def relevantShipments (data : List DataRow) : List DataRow :=
  (shipments data).filter (fun s => s.required_shipping_date.isSome)

/-- `relevantShipments.length > 0 ? (onTimeShipments / relevantShipments.length) * 100 : 0`. -/
def onTimeRate (data : List DataRow) : ℚ :=
  if (relevantShipments data).length > 0 then
    ((onTimeShipments data : ℚ) / ((relevantShipments data).length : ℚ)) * 100
  else 0

/-- `orders.filter(shipped/delivered).reduce((sum, o) => sum + o.quantity, 0)`. -/
def totalShippedQty (data : List DataRow) : ℚ :=
  (((orders data).filter (fun o => o.status == "Shipped" || o.status == "Delivered")).map
    (fun o => o.quantity)).sum

/-- `inventory.reduce((sum, i) => sum + i.quantity, 0)`. -/
def totalInventory (data : List DataRow) : ℚ :=
  ((inventory data).map (fun i => i.quantity)).sum

/-- `new Set(inventory.map(i => i.product_name)).size`. -/
def distinctProductCount (data : List DataRow) : ℕ :=
  (((inventory data).map (fun i => i.product_name)).dedup).length

/-- `totalInventory > 0 ? totalInventory / (inventory.length / setSize || 1) : 0`.
On a non-NaN number `x`, JS `x || 1` is `1` when `x = 0` and `x` otherwise;
inside the guarded branch the ratio is never NaN (a positive total forces a
nonempty inventory list, hence a nonzero set size). -/
def avgInventory (data : List DataRow) : ℚ :=
  if totalInventory data > 0 then
    totalInventory data /
      (let ratio : ℚ := ((inventory data).length : ℚ) / (distinctProductCount data : ℚ)
       if ratio = 0 then 1 else ratio)
  else 0

/-- `avgInventory > 0 ? totalShippedQty / avgInventory : 0`. -/
def inventoryTurnover (data : List DataRow) : ℚ :=
  if avgInventory data > 0 then totalShippedQty data / avgInventory data else 0

/-- One step of `acc[k] = (acc[k] || 0) + 1`: an existing key keeps its
position and is incremented, a fresh key is appended at the end. -/
def bumpCount {α : Type} [DecidableEq α] (acc : List (α × ℕ)) (k : α) : List (α × ℕ) :=
  match acc with
  | [] => [(k, 1)]
  | (k', v) :: rest => if k' = k then (k', v + 1) :: rest else (k', v) :: bumpCount rest k

/-- One step of `acc[k] = (acc[k] || 0) + q` for a rational accumulator. -/
def bumpAdd {α : Type} [DecidableEq α] (acc : List (α × ℚ)) (k : α) (q : ℚ) : List (α × ℚ) :=
  match acc with
  | [] => [(k, q)]
  | (k', v) :: rest => if k' = k then (k', v + q) :: rest else (k', v) :: bumpAdd rest k q

/-- `orders.reduce((acc, order) => { acc[order.status] = (acc[order.status] || 0) + 1; ... }, {})`
followed by `Object.entries`, kept in first-occurrence order. -/
def orderStatusCounts (data : List DataRow) : List (String × ℕ) :=
  (orders data).foldl (fun acc order => bumpCount acc order.status) []

/-- `ordersChartData = Object.entries(orderStatusCounts).map(([name, value]) => ({name, value}))`. -/
def ordersChartData (data : List DataRow) : List (String × ℕ) :=
  orderStatusCounts data

/-- `inventory.reduce(...)` grouping by `item.location || 'Unknown'` (the only
falsy string is `""`), summing quantities. -/
def inventoryByWarehouse (data : List DataRow) : List (String × ℚ) :=
  (inventory data).foldl
    (fun acc item => bumpAdd acc (if item.location == "" then "Unknown" else item.location)
      item.quantity) []

/-- `inventoryChartData = Object.entries(inventoryByWarehouse).map(([name, quantity]) => ({name, quantity}))`. -/
def inventoryChartData (data : List DataRow) : List (String × ℚ) :=
  inventoryByWarehouse data

/-- `orders.reduce(...)`: count orders per UTC calendar day of `order_date`,
skipping rows with a null `order_date`; keys are day indices (see header). -/
def ordersByDay (data : List DataRow) : List (ℤ × ℕ) :=
  (orders data).foldl
    (fun acc order =>
      match order.order_date with
      | some ts => bumpCount acc (Int.fdiv ts 86400000)
      | none => acc) []

/-- Insertion step for sorting day buckets by ascending key. -/
def insertByKey (p : ℤ × ℕ) : List (ℤ × ℕ) → List (ℤ × ℕ)
  | [] => [p]
  | q :: rest => if p.1 < q.1 then p :: q :: rest else q :: insertByKey p rest

/-- `Object.keys(ordersByDay).sort((a, b) => new Date(a).getTime() - new Date(b).getTime())`
then `map(date => ({name: date, orders: ordersByDay[date]}))`: the day keys are
distinct, so the comparator sort yields the unique key-ascending arrangement,
which any correct sort produces. -/
def sortByKey (l : List (ℤ × ℕ)) : List (ℤ × ℕ) :=
  l.foldr insertByKey []

/-- The sorted `volumeChartData`. -/
def volumeChartData (data : List DataRow) : List (ℤ × ℕ) :=
  sortByKey (ordersByDay data)

/-- `parseFloat(avgCycleTime.toFixed(1))` on an exact value: round to the
nearest multiple of 1/10, ties toward +∞ (the ECMAScript `toFixed` tie rule
"pick the larger n"), which is Mathlib's `round`. -/
def toFixed1 (x : ℚ) : ℚ :=
  ((round (10 * x) : ℤ) : ℚ) / 10

/-- `processDataForDashboard` from `utils/dataProcessor.ts`. -/
def processDataForDashboard (data : List DataRow) : ProcessedData :=
  { kpis :=
      { fillRate := fillRate data
        cycleTime := (avgCycleTime data).map (fun t => toFixed1 t)
        onTimeRate := onTimeRate data
        inventoryTurnover := inventoryTurnover data }
    ordersChartData := ordersChartData data
    inventoryChartData := inventoryChartData data
    volumeChartData := volumeChartData data
    orders := orders data }

/-- Days from the Unix epoch (1970-01-01) to civil date `y-m-d` (month 1-based);
the standard civil-calendar conversion used by JS `Date.UTC`. -/
def daysFromCivil (y m d : ℤ) : ℤ :=
  let y' := y - (if m ≤ 2 then 1 else 0)
  let era := Int.fdiv y' 400
  let yoe := y' - era * 400
  let doy := Int.fdiv (153 * (m + (if m > 2 then -3 else 9)) + 2) 5 + d - 1
  let doe := yoe * 365 + Int.fdiv yoe 4 - Int.fdiv yoe 100 + doy
  era * 146097 + doe - 719468

/-- Inverse of `daysFromCivil`: civil date `(y, m, d)` of an epoch day index. -/
def civilFromDays (z : ℤ) : ℤ × ℤ × ℤ :=
  let z' := z + 719468
  let era := Int.fdiv z' 146097
  let doe := z' - era * 146097
  let yoe := Int.fdiv (doe - Int.fdiv doe 1460 + Int.fdiv doe 36524 - Int.fdiv doe 146097) 365
  let y := yoe + era * 400
  let doy := doe - (365 * yoe + Int.fdiv yoe 4 - Int.fdiv yoe 100)
  let mp := Int.fdiv (5 * doy + 2) 153
  let d := doy - Int.fdiv (153 * mp + 2) 5 + 1
  let m := mp + (if mp < 10 then 3 else -9)
  (y + (if m ≤ 2 then 1 else 0), m, d)

/-- `Date.UTC(year, monthIndex, day)` as a millisecond timestamp: the 0-based
`monthIndex` rolls over into adjacent years, the day into adjacent months. -/
def dateUTC (y monthIndex d : ℤ) : ℤ :=
  (daysFromCivil (y + Int.fdiv monthIndex 12) (Int.emod monthIndex 12 + 1) 1 + (d - 1)) * 86400000

/-- Gregorian leap-year rule. -/
def isLeapYear (y : ℤ) : Bool :=
  (y % 4 == 0 && y % 100 != 0) || y % 400 == 0

/-- Number of days of month `m` (1-based) in year `y`. -/
def daysInMonth (y m : ℤ) : ℤ :=
  if m == 1 || m == 3 || m == 5 || m == 7 || m == 8 || m == 10 || m == 12 then 31
  else if m == 2 then (if isLeapYear y then 29 else 28)
  else 30

/-- Whether `y-m-d` names an actual calendar date. -/
def validYmd (y m d : ℤ) : Bool :=
  decide (1 ≤ m) && decide (m ≤ 12) && decide (1 ≤ d) && decide (d ≤ daysInMonth y m)

/-- ASCII decimal digit test. -/
def isDigitChar (c : Char) : Bool :=
  '0' ≤ c && c ≤ '9'

/-- Value of a list of decimal digit characters (JS `parseInt` on a digit string). -/
def digitsToInt (cs : List Char) : ℤ :=
  cs.foldl (fun a c => 10 * a + ((c.toNat : ℤ) - 48)) 0

/-- Recognize exactly the shape `\d4-\d2-\d2` (ISO date-only). -/
def parseIsoYmd (s : String) : Option (ℤ × ℤ × ℤ) :=
  match s.data with
  | [a, b, c, d, h1, e, f, h2, g, i] =>
    if [a, b, c, d, e, f, g, i].all isDigitChar && h1 == '-' && h2 == '-' then
      some (digitsToInt [a, b, c, d], digitsToInt [e, f], digitsToInt [g, i])
    else none
  | _ => none

/-- Recognize exactly the legacy US shape `M/D/YYYY` with 1-2 digit month/day. -/
def parseSlashMdy (s : String) : Option (ℤ × ℤ × ℤ) :=
  match s.data.splitOn '/' with
  | [ms, ds, ys] =>
    if ms.all isDigitChar && ds.all isDigitChar && ys.all isDigitChar &&
        decide (1 ≤ ms.length) && decide (ms.length ≤ 2) &&
        decide (1 ≤ ds.length) && decide (ds.length ≤ 2) && ys.length == 4 then
      some (digitsToInt ms, digitsToInt ds, digitsToInt ys)
    else none
  | _ => none

/-- Model of the host `new Date(string)` constructor (ECMAScript + the V8
legacy parser), restricted to the string shapes this development exercises:
an ISO date-only string is interpreted at UTC midnight, an `M/D/YYYY` string
at local midnight for a host timezone `tz` minutes east of UTC, and every
other string yields an Invalid Date (`none`). -/
def jsDateParse (tz : ℤ) (s : String) : Option ℤ :=
  match parseIsoYmd s with
  | some (y, m, d) =>
    if validYmd y m d then some (86400000 * daysFromCivil y m d) else none
  | none =>
    match parseSlashMdy s with
    | some (m, d, y) =>
      if validYmd y m d then some (86400000 * daysFromCivil y m d - tz * 60000) else none
    | none => none

/-- `/` or `-`, the separators of the fallback pattern. -/
def isSepChar (c : Char) : Bool :=
  c == '/' || c == '-'

/-- Take exactly `n` leading digits, returning them and the rest. -/
def takeDigits : ℕ → List Char → Option (List Char × List Char)
  | 0, cs => some ([], cs)
  | _ + 1, [] => none
  | n + 1, c :: cs =>
    if isDigitChar c then (takeDigits n cs).map (fun p => (c :: p.1, p.2)) else none

/-- Match `nm` digits, a separator (slash or dash), `nd` digits, a separator,
then 4 digits at the start of `cs`; trailing characters are unconstrained
(the regex has no anchor). -/
def matchNums (nm nd : ℕ) (cs : List Char) : Option (String × String × String) := do
  let (mo, r1) ← takeDigits nm cs
  match r1 with
  | s1 :: r2 =>
    if isSepChar s1 then do
      let (da, r3) ← takeDigits nd r2
      match r3 with
      | s2 :: r4 =>
        if isSepChar s2 then do
          let (yr, _) ← takeDigits 4 r4
          pure (String.mk mo, String.mk da, String.mk yr)
        else none
      | [] => none
    else none
  | [] => none

/-- One start position of the fallback pattern (1-2 digits, separator,
1-2 digits, separator, 4 digits): the greedy quantifiers try two digits
before one, with full backtracking. -/
def matchAt (cs : List Char) : Option (String × String × String) :=
  (matchNums 2 2 cs).orElse (fun _ => (matchNums 2 1 cs).orElse (fun _ =>
    (matchNums 1 2 cs).orElse (fun _ => matchNums 1 1 cs)))

/-- `String.prototype.match`: the leftmost position where the pattern matches. -/
def matchSearch : List Char → Option (String × String × String)
  | [] => none
  | c :: cs => (matchAt (c :: cs)).orElse (fun _ => matchSearch cs)

/-- The WhiteSpace / LineTerminator code points stripped by JS
`String.prototype.trim`. -/
def isJsSpace (c : Char) : Bool :=
  c == ' ' || c == '\t' || c == '\n' || c == '\r' ||
  c.toNat == 11 || c.toNat == 12 || c.toNat == 160 || c.toNat == 65279 ||
  (8192 ≤ c.toNat && c.toNat ≤ 8202) || c.toNat == 8232 || c.toNat == 8233 ||
  c.toNat == 8239 || c.toNat == 8287 || c.toNat == 12288 || c.toNat == 5760

/-- JS `s.trim()`. -/
def jsTrim (s : String) : String :=
  String.mk (((s.data.dropWhile isJsSpace).reverse.dropWhile isJsSpace).reverse)

/-- A JS value passed to `parseDate(dateString: any)`: either a string or any
non-string value (number, null, undefined, object, ...); the
`typeof dateString !== 'string'` guard rejects every non-string uniformly. -/
inductive JSInput where
  | ofString (s : String)
  | nonString
deriving DecidableEq

/-- `parseDate` from `utils/dataProcessor.ts`.  `tz` is the host timezone
offset in minutes east of UTC: `getFullYear`/`getMonth`/`getDate` read
local-time components, i.e. the civil date of the day index
`Int.fdiv (ts + tz * 60000) 86400000`. -/
def parseDate (tz : ℤ) : JSInput → Option ℤ
  | JSInput.nonString => none
  | JSInput.ofString s =>
    if s == "" || jsTrim s == "" then none
    else
      match jsDateParse tz s with
      | some ts =>
        let localDay := Int.fdiv (ts + tz * 60000) 86400000
        let ymd := civilFromDays localDay
        some (dateUTC ymd.1 (ymd.2.1 - 1) ymd.2.2)
      | none =>
        match matchSearch s.data with
        | some (p1, p2, p3) =>
          some (dateUTC (digitsToInt p3.data) (digitsToInt p1.data - 1) (digitsToInt p2.data))
        | none => none

/-- An order row for the concrete scenarios; unused date fields are null. -/
def mkOrder (st : String) (od dd : Option ℤ) (q : ℚ) : DataRow :=
  { type := "order", id := "", product_name := "P", quantity := q, status := st,
    order_date := od, ship_date := none, delivery_date := dd,
    required_shipping_date := none, location := "W" }

/-- An inventory row for the concrete scenarios. -/
def mkInventory (p : String) (q : ℚ) (loc : String) : DataRow :=
  { type := "inventory", id := "", product_name := p, quantity := q, status := "",
    order_date := none, ship_date := none, delivery_date := none,
    required_shipping_date := none, location := loc }

/-- A shipment row for the concrete scenarios. -/
def mkShipment (sd rd : Option ℤ) : DataRow :=
  { type := "shipment", id := "", product_name := "P", quantity := 1, status := "",
    order_date := none, ship_date := sd, delivery_date := none,
    required_shipping_date := rd, location := "W" }

/-- The C1 scenario: 10 orders, 6 Shipped, 2 Delivered, 2 Processing. -/
def fillRateScenario : List DataRow :=
  List.replicate 6 (mkOrder "Shipped" none none 1) ++
  List.replicate 2 (mkOrder "Delivered" none none 1) ++
  List.replicate 2 (mkOrder "Processing" none none 1)

/-- The C2 scenario: 3 delivered orders with cycle times of 2, 4 and 6 days. -/
def cycleTimeScenario : List DataRow :=
  [mkOrder "Delivered" (some 0) (some (2 * 86400000)) 1,
   mkOrder "Delivered" (some 0) (some (4 * 86400000)) 1,
   mkOrder "Delivered" (some 0) (some (6 * 86400000)) 1]

lemma countP_and_comm (data : List DataRow) (p q : DataRow → Bool) :
    data.countP (fun r => p r && q r) = data.countP (fun r => q r && p r) :=
  List.countP_congr (fun r _ => by simp [Bool.and_comm])

/-- C1: `fillRate` equals the number of orders whose status is exactly
`Shipped` or `Delivered`, divided by the number of orders, times 100, and is 0
when there are no orders; 10 orders of which 6 are Shipped and 2 Delivered
yield `fillRate = 80`. -/
theorem fillRate_matches_spec (data : List DataRow) :
    ((processDataForDashboard data).kpis.fillRate =
      if data.countP (fun r => r.type == "order") = 0 then 0
      else (data.countP (fun r => r.type == "order" &&
              (r.status == "Shipped" || r.status == "Delivered")) : ℚ) /
           (data.countP (fun r => r.type == "order") : ℚ) * 100) ∧
    (processDataForDashboard fillRateScenario).kpis.fillRate = 80 := by
  constructor
  · show fillRate data = _
    rw [fillRate, shippedOrdersCount, orders, List.filter_filter,
      ← List.countP_eq_length_filter, ← List.countP_eq_length_filter,
      countP_and_comm data (fun r => r.status == "Shipped" || r.status == "Delivered")
        (fun r => r.type == "order")]
    rcases Nat.eq_zero_or_pos (data.countP (fun r => r.type == "order")) with h | h
    · simp [h]
    · rw [if_pos h, if_neg (Nat.pos_iff_ne_zero.mp h)]
  · show fillRate fillRateScenario = 80
    simp [fillRate, shippedOrdersCount, orders, fillRateScenario, mkOrder, List.filter]
    norm_num

/-- C5: the empty row collection yields all KPI defaults (`fillRate`,
`onTimeRate`, `inventoryTurnover` zero, `cycleTime` the `'N/A'` sentinel),
three empty chart arrays and an empty order subset, without any error. -/
theorem empty_input_defaults :
    processDataForDashboard [] =
      { kpis := { fillRate := 0, cycleTime := none, onTimeRate := 0, inventoryTurnover := 0 },
        ordersChartData := [], inventoryChartData := [], volumeChartData := [], orders := [] } := by
  simp [processDataForDashboard, fillRate, avgCycleTime, onTimeRate, inventoryTurnover,
    avgInventory, totalInventory, inventory, orders, shipments, deliveredOrders,
    relevantShipments, ordersChartData, orderStatusCounts, inventoryChartData,
    inventoryByWarehouse, volumeChartData, ordersByDay, sortByKey]

lemma deliveredOrders_eq_filter (data : List DataRow) :
    deliveredOrders data = data.filter (fun o => o.type == "order" &&
      (o.status == "Delivered" && o.delivery_date.isSome && o.order_date.isSome)) := by
  rw [deliveredOrders, orders, List.filter_filter]
  exact List.filter_congr (fun a _ => Bool.and_comm _ _)

/-- C2: `cycleTime` is the `'N/A'` sentinel exactly when no row is an order
with status `Delivered` and both `order_date` and `delivery_date` non-null;
otherwise it is the mean over those rows of the elapsed days
(`delivery_date - order_date`, 86400000 ms per day), rounded to one decimal
place; three delivered orders with cycle times 2, 4 and 6 days yield 4.0. -/
theorem cycleTime_matches_spec (data : List DataRow) :
    ((processDataForDashboard data).kpis.cycleTime = none ↔
      data.countP (fun o => o.type == "order" &&
        (o.status == "Delivered" && o.delivery_date.isSome && o.order_date.isSome)) = 0) ∧
    ((processDataForDashboard data).kpis.cycleTime =
      if data.countP (fun o => o.type == "order" &&
          (o.status == "Delivered" && o.delivery_date.isSome && o.order_date.isSome)) = 0
      then none
      else some (toFixed1
        (((data.filter (fun o => o.type == "order" &&
            (o.status == "Delivered" && o.delivery_date.isSome && o.order_date.isSome))).map
              cycleDays).sum /
          (data.countP (fun o => o.type == "order" &&
            (o.status == "Delivered" && o.delivery_date.isSome && o.order_date.isSome)) : ℚ)))) ∧
    (processDataForDashboard cycleTimeScenario).kpis.cycleTime = some 4 := by
  have hmain : (processDataForDashboard data).kpis.cycleTime =
      (avgCycleTime data).map (fun t => toFixed1 t) := rfl
  have hlen : (deliveredOrders data).length =
      data.countP (fun o => o.type == "order" &&
        (o.status == "Delivered" && o.delivery_date.isSome && o.order_date.isSome)) := by
    rw [deliveredOrders_eq_filter, List.countP_eq_length_filter]
  refine ⟨?_, ?_, ?_⟩
  · rw [hmain, avgCycleTime, ← hlen]
    rcases Nat.eq_zero_or_pos (deliveredOrders data).length with h | h
    · simp [h]
    · simp [if_pos h, Nat.pos_iff_ne_zero.mp h]
  · rw [hmain, avgCycleTime, ← hlen, ← deliveredOrders_eq_filter]
    rcases Nat.eq_zero_or_pos (deliveredOrders data).length with h | h
    · simp [h]
    · rw [if_pos h, if_neg (Nat.pos_iff_ne_zero.mp h)]
      rfl
  · show (avgCycleTime cycleTimeScenario).map (fun t => toFixed1 t) = some 4
    simp [avgCycleTime, deliveredOrders, orders, cycleTimeScenario, mkOrder,
      List.filter, cycleDays, toFixed1]
    norm_num [round_eq]

/-- C3: `onTimeRate` is the count of shipments with both dates non-null and
`ship_date <= required_shipping_date`, divided by the count of shipments with
`required_shipping_date` non-null, times 100 (0 when that denominator is 0);
appending a shipmentlike row whose `required_shipping_date` is null never
changes the rate, whatever its `ship_date`. -/
theorem onTimeRate_matches_spec (data : List DataRow) (r : DataRow) :
    ((processDataForDashboard data).kpis.onTimeRate =
      if data.countP (fun s => s.type == "shipment" && s.required_shipping_date.isSome) = 0
      then 0
      else (data.countP (fun s => s.type == "shipment" &&
              (s.ship_date.isSome && s.required_shipping_date.isSome &&
                decide (s.ship_date.getD 0 ≤ s.required_shipping_date.getD 0))) : ℚ) /
           (data.countP (fun s => s.type == "shipment" &&
              s.required_shipping_date.isSome) : ℚ) * 100) ∧
    (processDataForDashboard
        (data ++ [{ r with required_shipping_date := none }])).kpis.onTimeRate =
      (processDataForDashboard data).kpis.onTimeRate := by
  constructor
  · show onTimeRate data = _
    rw [onTimeRate, onTimeShipments, relevantShipments, shipments, List.filter_filter,
      List.filter_filter, ← List.countP_eq_length_filter, ← List.countP_eq_length_filter,
      countP_and_comm data _ (fun r => r.type == "shipment"),
      countP_and_comm data _ (fun r => r.type == "shipment")]
    rcases Nat.eq_zero_or_pos
      (data.countP (fun s => s.type == "shipment" && s.required_shipping_date.isSome)) with h | h
    · simp [h]
    · rw [if_pos h, if_neg (Nat.pos_iff_ne_zero.mp h)]
  · show onTimeRate _ = onTimeRate data
    rw [onTimeRate, onTimeRate, onTimeShipments, onTimeShipments, relevantShipments,
      relevantShipments, shipments, shipments]
    cases htype : (r.type == "shipment") <;>
      simp [List.filter_append, List.filter, htype]

/-- The average inventory level exactly as claim C4 words it (for comparison
with the implementation): total inventory quantity divided by (inventory row
count ÷ distinct product count), substituting 1 when that ratio is 0. -/
def claimAvgInventory (data : List DataRow) : ℚ :=
  let ratio : ℚ := ((inventory data).length : ℚ) / (distinctProductCount data : ℚ)
  totalInventory data / (if ratio = 0 then 1 else ratio)

/-- The inventory turnover exactly as claim C4 words it: shipped quantity
divided by `claimAvgInventory`, and 0 whenever that average is 0. -/
def claimInventoryTurnover (data : List DataRow) : ℚ :=
  if claimAvgInventory data = 0 then 0
  else totalShippedQty data / claimAvgInventory data

/-- A collection whose total inventory quantity is negative: one inventory
row of quantity -5 and one shipped order of quantity 10. -/
def turnoverCexData : List DataRow :=
  [mkInventory "A" (-5) "W", mkOrder "Shipped" none none 10]

/-- C4 counterexample: on `turnoverCexData` the code returns turnover 0 (its
guard is `totalInventory > 0`, not `average ≠ 0`), while the claimed
estimator returns 10 / (-5) = -2. -/
theorem inventoryTurnover_claim_cex :
    (processDataForDashboard turnoverCexData).kpis.inventoryTurnover ≠
      claimInventoryTurnover turnoverCexData := by
  show inventoryTurnover turnoverCexData ≠ _
  simp [inventoryTurnover, avgInventory, claimInventoryTurnover, claimAvgInventory,
    totalInventory, totalShippedQty, distinctProductCount, inventory, orders,
    turnoverCexData, mkInventory, mkOrder, List.filter_cons, List.filter_nil,
    List.dedup_cons_of_not_mem, List.dedup_nil, beq_iff_eq]
  norm_num

/-- C4 amended: `inventoryTurnover` equals shipped quantity divided by the
claimed average-inventory estimator whenever the total inventory quantity is
positive and that average is positive, and is 0 otherwise (in particular the
code short-circuits the average to 0 whenever the total inventory quantity is
not positive, so a negative average never reaches the division). -/
theorem inventoryTurnover_amended (data : List DataRow) :
    (processDataForDashboard data).kpis.inventoryTurnover =
      if totalInventory data > 0 then
        (if claimAvgInventory data > 0 then
          totalShippedQty data / claimAvgInventory data
        else 0)
      else 0 := by
  show inventoryTurnover data = _
  simp only [inventoryTurnover, avgInventory, claimAvgInventory]
  split_ifs <;> simp_all

/-- A collection with positive inventory and a negative shipped quantity:
one inventory row of quantity 5 and one shipped order of quantity -10. -/
def boundsCexData : List DataRow :=
  [mkInventory "A" 5 "W", mkOrder "Shipped" none none (-10)]

/-- C7 counterexample: with a quantity that is an arbitrary number (here -10
on a shipped order), `inventoryTurnover` is -2, which is negative, refuting
the claimed lower bound 0. -/
theorem kpi_bounds_cex :
    (processDataForDashboard boundsCexData).kpis.inventoryTurnover < 0 := by
  show inventoryTurnover boundsCexData < 0
  simp [inventoryTurnover, avgInventory, totalInventory, totalShippedQty,
    distinctProductCount, inventory, orders, boundsCexData, mkInventory, mkOrder,
    List.filter_cons, List.filter_nil, List.dedup_cons_of_not_mem, List.dedup_nil, beq_iff_eq]
  norm_num

lemma ratio_mul_hundred_bounds {k n : ℕ} (hk : k ≤ n) :
    0 ≤ (k : ℚ) / (n : ℚ) * 100 ∧ (k : ℚ) / (n : ℚ) * 100 ≤ 100 := by
  rcases Nat.eq_zero_or_pos n with hn | hn
  · subst hn
    interval_cases k
    norm_num
  · have hnpos : (0 : ℚ) < (n : ℚ) := by exact_mod_cast hn
    constructor
    · positivity
    · have h1 : (k : ℚ) / (n : ℚ) ≤ 1 := by
        rw [div_le_one hnpos]
        exact_mod_cast hk
      calc (k : ℚ) / (n : ℚ) * 100 ≤ 1 * 100 := by
            exact mul_le_mul_of_nonneg_right h1 (by norm_num)
        _ = 100 := by norm_num

/-- C7 amended: for every row collection, `fillRate` and `onTimeRate` lie in
[0, 100]; `inventoryTurnover` is nonnegative provided every row's quantity is
nonnegative (the ingestion invariant only guarantees quantities are numbers,
and a negative quantity can make the turnover negative). -/
theorem kpi_bounds_amended (data : List DataRow) :
    0 ≤ (processDataForDashboard data).kpis.fillRate ∧
    (processDataForDashboard data).kpis.fillRate ≤ 100 ∧
    0 ≤ (processDataForDashboard data).kpis.onTimeRate ∧
    (processDataForDashboard data).kpis.onTimeRate ≤ 100 ∧
    ((∀ row ∈ data, 0 ≤ row.quantity) →
      0 ≤ (processDataForDashboard data).kpis.inventoryTurnover) := by
  have hfill : 0 ≤ fillRate data ∧ fillRate data ≤ 100 := by
    rw [fillRate]
    split_ifs with h
    · exact ratio_mul_hundred_bounds (by
        rw [shippedOrdersCount]
        exact List.length_filter_le _ _)
    · norm_num
  have hontime : 0 ≤ onTimeRate data ∧ onTimeRate data ≤ 100 := by
    rw [onTimeRate]
    split_ifs with h
    · refine ratio_mul_hundred_bounds ?_
      rw [onTimeShipments, relevantShipments, ← List.countP_eq_length_filter,
        ← List.countP_eq_length_filter]
      refine List.countP_mono_left (fun s _ hs => ?_)
      simp only [Bool.and_eq_true] at hs ⊢
      exact hs.1.2
    · norm_num
  refine ⟨hfill.1, hfill.2, hontime.1, hontime.2, fun hq => ?_⟩
  show 0 ≤ inventoryTurnover data
  rw [inventoryTurnover]
  split_ifs with h
  · refine div_nonneg ?_ (le_of_lt h)
    rw [totalShippedQty]
    refine List.sum_nonneg (fun x hx => ?_)
    obtain ⟨o, ho, rfl⟩ := List.mem_map.1 hx
    exact hq o (List.mem_filter.1 (List.mem_filter.1 ho).1).1
  · norm_num

/-- Closed instance of `kpi_bounds_amended`: its quantity hypothesis holds on
the all-quantity-one scenario collection. -/
theorem kpi_bounds_amended_witness :
    0 ≤ (processDataForDashboard cycleTimeScenario).kpis.inventoryTurnover :=
  (kpi_bounds_amended cycleTimeScenario).2.2.2.2 (by
    intro row h
    simp only [cycleTimeScenario, List.mem_cons, List.not_mem_nil, or_false] at h
    rcases h with rfl | rfl | rfl <;> norm_num [mkOrder])

lemma fdiv_utc_day (d tz : ℤ) (h0 : 0 ≤ tz) (h1 : tz < 1440) :
    Int.fdiv (86400000 * d + tz * 60000) 86400000 = d := by
  rw [Int.fdiv_eq_ediv _ (by norm_num)]
  omega

lemma fdiv_local_day (d tz : ℤ) :
    Int.fdiv (86400000 * d - tz * 60000 + tz * 60000) 86400000 = d := by
  have h : 86400000 * d - tz * 60000 + tz * 60000 = 86400000 * d := by ring
  rw [h, Int.fdiv_eq_ediv _ (by norm_num)]
  omega

/-- C6 counterexample: in a host timezone west of UTC (offset -300 minutes,
e.g. the US East Coast in March), `new Date("2024-03-15")` is UTC midnight
March 15 but its local-time date components name March 14, so `parseDate`
returns UTC midnight March 14, 2024 — not March 15 as the claim states for
every environment. -/
theorem parseDate_claim_cex :
    parseDate (-300) (JSInput.ofString "2024-03-15") =
      some (86400000 * daysFromCivil 2024 3 14) ∧
    86400000 * daysFromCivil 2024 3 14 ≠ 86400000 * daysFromCivil 2024 3 15 := by
  exact ⟨rfl, by decide⟩

/-- C6 amended: `parseDate` returns null for every non-string input and for
every string that is blank after trimming, without throwing; in host
timezones at or east of UTC (offset `tz` minutes with `0 ≤ tz < 1440`),
`parseDate "2024-03-15"` and `parseDate "3/15/2024"` both return UTC midnight
March 15, 2024, and `parseDate "not-a-date"` and `parseDate ""` return null.
West of UTC the ISO string instead yields the previous day. -/
theorem parseDate_amended (tz : ℤ) (h0 : 0 ≤ tz) (h1 : tz < 1440) :
    (∀ s : String, jsTrim s = "" → parseDate tz (JSInput.ofString s) = none) ∧
    parseDate tz JSInput.nonString = none ∧
    parseDate tz (JSInput.ofString "2024-03-15") =
      some (86400000 * daysFromCivil 2024 3 15) ∧
    parseDate tz (JSInput.ofString "3/15/2024") =
      some (86400000 * daysFromCivil 2024 3 15) ∧
    parseDate tz (JSInput.ofString "not-a-date") = none ∧
    parseDate tz (JSInput.ofString "") = none := by
  refine ⟨?_, rfl, ?_, ?_, rfl, rfl⟩
  · intro s hs
    simp [parseDate, hs]
  · have hiso : parseDate tz (JSInput.ofString "2024-03-15") =
        some (dateUTC
          (civilFromDays
            (Int.fdiv (86400000 * daysFromCivil 2024 3 15 + tz * 60000) 86400000)).1
          ((civilFromDays
            (Int.fdiv (86400000 * daysFromCivil 2024 3 15 + tz * 60000) 86400000)).2.1 - 1)
          (civilFromDays
            (Int.fdiv (86400000 * daysFromCivil 2024 3 15 + tz * 60000) 86400000)).2.2) := rfl
    rw [hiso, fdiv_utc_day _ tz h0 h1]
    rfl
  · have hslash : parseDate tz (JSInput.ofString "3/15/2024") =
        some (dateUTC
          (civilFromDays
            (Int.fdiv (86400000 * daysFromCivil 2024 3 15 - tz * 60000 + tz * 60000)
              86400000)).1
          ((civilFromDays
            (Int.fdiv (86400000 * daysFromCivil 2024 3 15 - tz * 60000 + tz * 60000)
              86400000)).2.1 - 1)
          (civilFromDays
            (Int.fdiv (86400000 * daysFromCivil 2024 3 15 - tz * 60000 + tz * 60000)
              86400000)).2.2) := rfl
    rw [hslash, fdiv_local_day _ tz]
    rfl

/-- Closed instance of `parseDate_amended` at offset 0 (UTC): a whitespace
string gives null and both date strings give UTC midnight March 15, 2024. -/
theorem parseDate_amended_witness :
    parseDate 0 (JSInput.ofString " ") = none ∧
    parseDate 0 (JSInput.ofString "2024-03-15") =
      some (86400000 * daysFromCivil 2024 3 15) ∧
    parseDate 0 (JSInput.ofString "3/15/2024") =
      some (86400000 * daysFromCivil 2024 3 15) := by
  obtain ⟨hblank, hns, hiso, hslash, hnad, hemp⟩ :=
    parseDate_amended 0 (by norm_num) (by norm_num)
  exact ⟨hblank " " rfl, hiso, hslash⟩

/-- C10: in the slash/dash fallback, a first captured component exceeding 12
(here the "15" of `"15/3/2024"`) is still interpreted as a month and rolls
over into a later year: the result is UTC midnight March 3, 2025 — a valid
date in a different month and year — rather than null or the day-first
reading March 15, 2024, in every host timezone. -/
theorem parseDate_fallback_rollover (tz : ℤ) :
    matchSearch ("15/3/2024").data = some ("15", "3", "2024") ∧
    parseDate tz (JSInput.ofString "15/3/2024") =
      some (86400000 * daysFromCivil 2025 3 3) ∧
    some (86400000 * daysFromCivil 2025 3 3) ≠ (none : Option ℤ) ∧
    86400000 * daysFromCivil 2025 3 3 ≠ 86400000 * daysFromCivil 2024 3 15 := by
  exact ⟨rfl, rfl, by decide, by decide⟩

/-- Value stored under key `k` in an association list (0 when absent; with
nodup keys the filter has at most one element). -/
def entryVal (l : List (ℤ × ℕ)) (k : ℤ) : ℕ :=
  ((l.filter (fun p => p.1 == k)).map Prod.snd).sum

lemma bumpCount_snd_sum {α : Type} [DecidableEq α] (acc : List (α × ℕ)) (k : α) :
    ((bumpCount acc k).map Prod.snd).sum = (acc.map Prod.snd).sum + 1 := by
  induction acc with
  | nil => simp [bumpCount]
  | cons p rest ih =>
    obtain ⟨k', v⟩ := p
    by_cases h : k' = k <;> simp [bumpCount, h, ih] <;> omega

lemma bumpAdd_snd_sum {α : Type} [DecidableEq α] (acc : List (α × ℚ)) (k : α) (q : ℚ) :
    ((bumpAdd acc k q).map Prod.snd).sum = (acc.map Prod.snd).sum + q := by
  induction acc with
  | nil => simp [bumpAdd]
  | cons p rest ih =>
    obtain ⟨k', v⟩ := p
    by_cases h : k' = k <;> simp [bumpAdd, h, ih] <;> ring

lemma bumpCount_keys {α : Type} [DecidableEq α] (acc : List (α × ℕ)) (k : α) :
    (bumpCount acc k).map Prod.fst =
      if k ∈ acc.map Prod.fst then acc.map Prod.fst else acc.map Prod.fst ++ [k] := by
  induction acc with
  | nil => simp [bumpCount]
  | cons p rest ih =>
    obtain ⟨k', v⟩ := p
    by_cases h : k' = k
    · subst h
      simp [bumpCount]
    · have hne : ¬k = k' := fun e => h e.symm
      simp only [bumpCount, if_neg h, List.map_cons, List.mem_cons, ih]
      by_cases hmem : k ∈ rest.map Prod.fst <;> simp [hmem, hne]

lemma bumpCount_keys_nodup {α : Type} [DecidableEq α] (acc : List (α × ℕ)) (k : α)
    (h : (acc.map Prod.fst).Nodup) : ((bumpCount acc k).map Prod.fst).Nodup := by
  rw [bumpCount_keys]
  split_ifs with hmem
  · exact h
  · simp [List.nodup_append, h, hmem]

lemma bumpCount_snd_pos {α : Type} [DecidableEq α] (acc : List (α × ℕ)) (k : α)
    (h : ∀ p ∈ acc, 0 < p.2) : ∀ p ∈ bumpCount acc k, 0 < p.2 := by
  induction acc with
  | nil =>
    intro p hp
    simp only [bumpCount, List.mem_singleton] at hp
    subst hp
    norm_num
  | cons a rest ih =>
    obtain ⟨k', v⟩ := a
    intro p hp
    by_cases hk : k' = k
    · subst hk
      simp only [bumpCount, if_pos rfl] at hp
      rcases List.mem_cons.1 hp with rfl | hp
      · exact Nat.succ_pos v
      · exact h p (List.mem_cons_of_mem _ hp)
    · simp only [bumpCount, if_neg hk] at hp
      rcases List.mem_cons.1 hp with rfl | hp
      · exact h (k', v) (List.mem_cons_self _ _)
      · exact ih (fun q hq => h q (List.mem_cons_of_mem _ hq)) p hp

lemma entryVal_cons (a : ℤ × ℕ) (l : List (ℤ × ℕ)) (k : ℤ) :
    entryVal (a :: l) k = (if a.1 == k then a.2 else 0) + entryVal l k := by
  by_cases h : (a.1 == k) = true <;> simp [entryVal, List.filter_cons, h]

lemma bumpCount_entryVal (acc : List (ℤ × ℕ)) (k' k : ℤ) :
    entryVal (bumpCount acc k') k = entryVal acc k + (if k = k' then 1 else 0) := by
  induction acc with
  | nil =>
    rw [show bumpCount ([] : List (ℤ × ℕ)) k' = [(k', 1)] from rfl, entryVal_cons]
    by_cases h : k = k'
    · subst h
      simp [entryVal]
    · have hne : ((k' : ℤ) == k) = false := by
        simp only [beq_eq_false_iff_ne, ne_eq]
        exact fun e => h e.symm
      simp [hne, h, entryVal]
  | cons a rest ih =>
    obtain ⟨a1, a2⟩ := a
    simp only [bumpCount]
    by_cases h1 : a1 = k'
    · rw [if_pos h1, entryVal_cons, entryVal_cons]
      subst h1
      by_cases h2 : k = a1
      · subst h2
        simp
        omega
      · have hne : ((a1 : ℤ) == k) = false := by
          simp only [beq_eq_false_iff_ne, ne_eq]
          exact fun e => h2 e.symm
        simp [hne, h2]
    · rw [if_neg h1, entryVal_cons, entryVal_cons, ih]
      omega

lemma entryVal_of_mem {acc : List (ℤ × ℕ)} {p : ℤ × ℕ}
    (h : (acc.map Prod.fst).Nodup) (hp : p ∈ acc) : entryVal acc p.1 = p.2 := by
  induction acc with
  | nil => cases hp
  | cons a rest ih =>
    rw [List.map_cons, List.nodup_cons] at h
    rcases List.mem_cons.1 hp with rfl | hp
    · rw [entryVal_cons]
      have hz : entryVal rest p.1 = 0 := by
        have hfil : rest.filter (fun q => q.1 == p.1) = [] := by
          refine List.filter_eq_nil_iff.2 (fun q hq => ?_)
          simp only [beq_iff_eq]
          exact fun e => h.1 (e ▸ List.mem_map_of_mem Prod.fst hq)
        rw [entryVal, hfil]
        rfl
      simp [hz]
    · rw [entryVal_cons, ih h.2 hp]
      have hne : (a.1 == p.1) = false := by
        simp only [beq_eq_false_iff_ne, ne_eq]
        exact fun e => h.1 (e ▸ List.mem_map_of_mem Prod.fst hp)
      simp [hne]

lemma entryVal_pos_iff {acc : List (ℤ × ℕ)} (h : (acc.map Prod.fst).Nodup)
    (hpos : ∀ p ∈ acc, 0 < p.2) (k : ℤ) :
    0 < entryVal acc k ↔ ∃ p ∈ acc, p.1 = k := by
  constructor
  · intro hlt
    by_contra hno
    push_neg at hno
    have hfil : acc.filter (fun p => p.1 == k) = [] :=
      List.filter_eq_nil_iff.2 (fun q hq => by simpa [beq_iff_eq] using hno q hq)
    rw [entryVal, hfil] at hlt
    simp at hlt
  · rintro ⟨p, hp, rfl⟩
    rw [entryVal_of_mem h hp]
    exact hpos p hp

lemma insertByKey_perm (p : ℤ × ℕ) (l : List (ℤ × ℕ)) :
    (insertByKey p l).Perm (p :: l) := by
  induction l with
  | nil => exact List.Perm.refl _
  | cons q rest ih =>
    simp only [insertByKey]
    split_ifs with h
    · exact List.Perm.refl _
    · exact (ih.cons q).trans (List.Perm.swap p q rest)

lemma insertByKey_pairwise (p : ℤ × ℕ) (l : List (ℤ × ℕ))
    (hl : l.Pairwise (fun a b => a.1 < b.1)) (hp : ∀ q ∈ l, p.1 ≠ q.1) :
    (insertByKey p l).Pairwise (fun a b => a.1 < b.1) := by
  induction l with
  | nil => simp [insertByKey]
  | cons q rest ih =>
    rw [List.pairwise_cons] at hl
    simp only [insertByKey]
    split_ifs with h
    · refine List.Pairwise.cons ?_ (List.pairwise_cons.2 hl)
      intro b hb
      rcases List.mem_cons.1 hb with rfl | hb
      · exact h
      · exact lt_trans h (hl.1 b hb)
    · have hq : q.1 < p.1 :=
        lt_of_le_of_ne (not_lt.1 h) (fun e => hp q (List.mem_cons_self _ _) e.symm)
      refine List.Pairwise.cons ?_ (ih hl.2 (fun r hr => hp r (List.mem_cons_of_mem _ hr)))
      intro b hb
      rcases List.mem_cons.1 ((insertByKey_perm p rest).mem_iff.1 hb) with rfl | hb
      · exact hq
      · exact hl.1 b hb

lemma sortByKey_perm (l : List (ℤ × ℕ)) : (sortByKey l).Perm l := by
  induction l with
  | nil => exact List.Perm.refl _
  | cons p rest ih =>
    exact (insertByKey_perm p (sortByKey rest)).trans (ih.cons p)

lemma sortByKey_pairwise (l : List (ℤ × ℕ)) (h : (l.map Prod.fst).Nodup) :
    (sortByKey l).Pairwise (fun a b => a.1 < b.1) := by
  induction l with
  | nil => simp [sortByKey]
  | cons p rest ih =>
    rw [List.map_cons, List.nodup_cons] at h
    show (insertByKey p (sortByKey rest)).Pairwise _
    refine insertByKey_pairwise p _ (ih h.2) ?_
    intro q hq e
    exact h.1 (e ▸ List.mem_map_of_mem Prod.fst ((sortByKey_perm rest).mem_iff.1 hq))

lemma foldl_statusBump_sum (rows : List DataRow) (acc : List (String × ℕ)) :
    ((rows.foldl (fun acc order => bumpCount acc order.status) acc).map Prod.snd).sum =
      (acc.map Prod.snd).sum + rows.length := by
  induction rows generalizing acc with
  | nil => simp
  | cons r rest ih =>
    rw [List.foldl_cons, ih, bumpCount_snd_sum, List.length_cons]
    omega

lemma foldl_locBump_sum (rows : List DataRow) (acc : List (String × ℚ)) :
    ((rows.foldl
        (fun acc item => bumpAdd acc (if item.location == "" then "Unknown" else item.location)
          item.quantity) acc).map Prod.snd).sum =
      (acc.map Prod.snd).sum + (rows.map (fun r => r.quantity)).sum := by
  induction rows generalizing acc with
  | nil => simp
  | cons r rest ih =>
    rw [List.foldl_cons, ih, bumpAdd_snd_sum, List.map_cons, List.sum_cons]
    ring

lemma foldl_dayBump_sum (rows : List DataRow) (acc : List (ℤ × ℕ)) :
    ((rows.foldl (fun acc order =>
        match order.order_date with
        | some ts => bumpCount acc (Int.fdiv ts 86400000)
        | none => acc) acc).map Prod.snd).sum =
      (acc.map Prod.snd).sum + rows.countP (fun r => r.order_date.isSome) := by
  induction rows generalizing acc with
  | nil => simp
  | cons r rest ih =>
    rw [List.foldl_cons, List.countP_cons]
    cases hod : r.order_date with
    | none => simp only [hod] at *; rw [ih]; simp
    | some ts =>
      simp only [hod] at *
      rw [ih, bumpCount_snd_sum]
      simp
      omega

lemma foldl_dayBump_entryVal (rows : List DataRow) (acc : List (ℤ × ℕ)) (k : ℤ) :
    entryVal (rows.foldl (fun acc order =>
        match order.order_date with
        | some ts => bumpCount acc (Int.fdiv ts 86400000)
        | none => acc) acc) k =
      entryVal acc k + rows.countP (fun r =>
        match r.order_date with
        | some ts => Int.fdiv ts 86400000 == k
        | none => false) := by
  induction rows generalizing acc with
  | nil => simp
  | cons r rest ih =>
    rw [List.foldl_cons, List.countP_cons]
    cases hod : r.order_date with
    | none => simp only [hod]; rw [ih]; simp
    | some ts =>
      simp only [hod]
      rw [ih, bumpCount_entryVal]
      by_cases h : Int.fdiv ts 86400000 = k
      · simp [h]
        omega
      · have hne : (Int.fdiv ts 86400000 == k) = false := by
          simp only [beq_eq_false_iff_ne, ne_eq]
          exact h
        have hne' : ¬k = Int.fdiv ts 86400000 := fun e => h e.symm
        simp [hne, hne']

lemma foldl_dayBump_keys_nodup (rows : List DataRow) (acc : List (ℤ × ℕ))
    (h : (acc.map Prod.fst).Nodup) :
    (((rows.foldl (fun acc order =>
        match order.order_date with
        | some ts => bumpCount acc (Int.fdiv ts 86400000)
        | none => acc) acc)).map Prod.fst).Nodup := by
  induction rows generalizing acc with
  | nil => simpa
  | cons r rest ih =>
    rw [List.foldl_cons]
    cases hod : r.order_date with
    | none => simp only [hod]; exact ih _ h
    | some ts => simp only [hod]; exact ih _ (bumpCount_keys_nodup _ _ h)

lemma foldl_dayBump_pos (rows : List DataRow) (acc : List (ℤ × ℕ))
    (h : ∀ p ∈ acc, 0 < p.2) :
    ∀ p ∈ rows.foldl (fun acc order =>
        match order.order_date with
        | some ts => bumpCount acc (Int.fdiv ts 86400000)
        | none => acc) acc, 0 < p.2 := by
  induction rows generalizing acc with
  | nil => exact h
  | cons r rest ih =>
    rw [List.foldl_cons]
    cases hod : r.order_date with
    | none => simp only [hod]; exact ih _ h
    | some ts => simp only [hod]; exact ih _ (bumpCount_snd_pos _ _ h)

lemma ordersByDay_keys_nodup (data : List DataRow) :
    ((ordersByDay data).map Prod.fst).Nodup :=
  foldl_dayBump_keys_nodup (orders data) [] (by simp)

lemma ordersByDay_pos (data : List DataRow) : ∀ p ∈ ordersByDay data, 0 < p.2 :=
  foldl_dayBump_pos (orders data) [] (by simp)

lemma ordersByDay_entryVal (data : List DataRow) (k : ℤ) :
    entryVal (ordersByDay data) k =
      data.countP (fun r => r.type == "order" &&
        (match r.order_date with
         | some ts => Int.fdiv ts 86400000 == k
         | none => false)) := by
  have h := foldl_dayBump_entryVal (orders data) [] k
  have h0 : entryVal [] k = 0 := rfl
  rw [h0, Nat.zero_add] at h
  rw [show entryVal (ordersByDay data) k =
      entryVal ((orders data).foldl (fun acc order =>
        match order.order_date with
        | some ts => bumpCount acc (Int.fdiv ts 86400000)
        | none => acc) []) k from rfl, h, orders, List.countP_filter]
  exact countP_and_comm data _ _

/-- C9: the chart projections conserve totals: the status-distribution values
sum to the number of order rows, the location-chart quantities sum to the
total quantity over inventory rows, and the volume-chart counts sum to the
number of order rows with a non-null `order_date`. -/
theorem charts_conserve_totals (data : List DataRow) :
    (((processDataForDashboard data).ordersChartData.map Prod.snd).sum =
      data.countP (fun r => r.type == "order")) ∧
    (((processDataForDashboard data).inventoryChartData.map Prod.snd).sum =
      ((data.filter (fun r => r.type == "inventory")).map (fun r => r.quantity)).sum) ∧
    (((processDataForDashboard data).volumeChartData.map Prod.snd).sum =
      data.countP (fun r => r.type == "order" && r.order_date.isSome)) := by
  refine ⟨?_, ?_, ?_⟩
  · show ((ordersChartData data).map Prod.snd).sum = _
    have h := foldl_statusBump_sum (orders data) []
    simp only [List.map_nil, List.sum_nil, Nat.zero_add] at h
    calc ((ordersChartData data).map Prod.snd).sum = (orders data).length := h
      _ = data.countP (fun r => r.type == "order") := by
          rw [orders, ← List.countP_eq_length_filter]
  · show ((inventoryChartData data).map Prod.snd).sum = _
    have h := foldl_locBump_sum (inventory data) []
    simp only [List.map_nil, List.sum_nil, zero_add] at h
    exact h
  · show ((volumeChartData data).map Prod.snd).sum = _
    have hv : volumeChartData data = sortByKey (ordersByDay data) := rfl
    have hperm := (sortByKey_perm (ordersByDay data)).map Prod.snd
    rw [hv, hperm.sum_eq]
    have h := foldl_dayBump_sum (orders data) []
    simp only [List.map_nil, List.sum_nil, Nat.zero_add] at h
    calc ((ordersByDay data).map Prod.snd).sum
        = (orders data).countP (fun r => r.order_date.isSome) := h
      _ = data.countP (fun r => r.type == "order" && r.order_date.isSome) := by
          rw [orders, List.countP_filter]
          exact countP_and_comm data _ _

/-- C8: the volume chart groups order rows by the UTC calendar day of their
`order_date`, excluding orders with a null `order_date`: its entries are in
strictly ascending calendar-day order, each entry holds the number of order
rows falling on its day, and a day appears among the entries exactly when at
least one order row falls on it. -/
theorem volumeChart_correct (data : List DataRow) :
    ((processDataForDashboard data).volumeChartData.Pairwise (fun a b => a.1 < b.1)) ∧
    (∀ p ∈ (processDataForDashboard data).volumeChartData,
      p.2 = data.countP (fun r => r.type == "order" &&
        (match r.order_date with
         | some ts => Int.fdiv ts 86400000 == p.1
         | none => false))) ∧
    (∀ z : ℤ, (∃ p ∈ (processDataForDashboard data).volumeChartData, p.1 = z) ↔
      0 < data.countP (fun r => r.type == "order" &&
        (match r.order_date with
         | some ts => Int.fdiv ts 86400000 == z
         | none => false))) := by
  have hvol : (processDataForDashboard data).volumeChartData =
      sortByKey (ordersByDay data) := rfl
  refine ⟨?_, ?_, ?_⟩
  · rw [hvol]
    exact sortByKey_pairwise _ (ordersByDay_keys_nodup data)
  · intro p hp
    rw [hvol] at hp
    have hp' : p ∈ ordersByDay data := (sortByKey_perm _).mem_iff.1 hp
    rw [← ordersByDay_entryVal data p.1]
    exact (entryVal_of_mem (ordersByDay_keys_nodup data) hp').symm
  · intro z
    rw [hvol]
    constructor
    · rintro ⟨p, hp, rfl⟩
      rw [← ordersByDay_entryVal data p.1]
      exact (entryVal_pos_iff (ordersByDay_keys_nodup data) (ordersByDay_pos data) p.1).2
        ⟨p, (sortByKey_perm _).mem_iff.1 hp, rfl⟩
    · intro hpos
      rw [← ordersByDay_entryVal data z] at hpos
      obtain ⟨p, hp, he⟩ :=
        (entryVal_pos_iff (ordersByDay_keys_nodup data) (ordersByDay_pos data) z).1 hpos
      exact ⟨p, (sortByKey_perm _).mem_iff.2 hp, he⟩

/-- Closed instance of `volumeChart_correct`: on the three-delivered-orders
scenario (all ordered on epoch day 0), the volume chart's single entry counts
3 orders for day 0. -/
theorem volumeChart_correct_witness :
    ((0 : ℤ), (3 : ℕ)).2 = cycleTimeScenario.countP (fun r => r.type == "order" &&
      (match r.order_date with
       | some ts => Int.fdiv ts 86400000 == ((0 : ℤ), (3 : ℕ)).1
       | none => false)) :=
  (volumeChart_correct cycleTimeScenario).2.1 ((0 : ℤ), (3 : ℕ)) (by decide)

/-- Closed instance of `cycleTime_matches_spec`: the three-delivered-orders
scenario evaluates to 4.0 days. -/
theorem cycleTime_matches_spec_witness :
    (processDataForDashboard cycleTimeScenario).kpis.cycleTime = some 4 :=
  (cycleTime_matches_spec cycleTimeScenario).2.2

/-- Closed instance of `parseDate_fallback_rollover` at offset 0 (UTC). -/
theorem parseDate_fallback_rollover_witness :
    parseDate 0 (JSInput.ofString "15/3/2024") =
      some (86400000 * daysFromCivil 2025 3 3) :=
  (parseDate_fallback_rollover 0).2.1
